import Mathlib

/-
Verification of the extent-option parser and geotransform deriver of
nansat/domain.py (class Domain).  The Python functions are shallowly
embedded: strings become lists of characters, Python floats become exact
rationals (ℚ), raised exceptions become `Except` errors, and the Python
dict becomes an association list with Python assignment semantics.

Embedded functions (source line numbers refer to src/nansat/domain.py):
  * Domain._check_extent_input   (lines 460-471)  -> check_extent_input
  * Domain._create_extent_dict   (lines 473-516)  -> create_extent_dict
  * Domain._convert_extentDic    (lines 418-457)  -> convert_extentDic
  * Domain._get_geotransform     (lines 680-720)  -> get_geotransform
  * Domain._transform_tr         (lines 722-751)  -> transform_tr
  * Domain._transform_ts         (lines 753-759)  -> transform_ts

Modelling notes:
  * Python float parsing (`float(el)`) is modelled for finite decimal
    literals with optional sign, fraction and exponent.  The special
    tokens "inf"/"nan" and underscore digit separators are outside the
    model; no token in any claim uses them.
  * Python float arithmetic is modelled exactly over ℚ; every concrete
    value appearing in the claims is exactly representable in binary
    floating point, so the modelled results agree with CPython.
  * `OptionError` is imported from nansat.tools, which is not part of
    this repository snapshot.  Modelled from the spec: a single
    configuration/validation error kind (the spec's InvalidExtentError),
    a plain Exception that is not a ValueError subclass.  Raw Python
    runtime errors reachable in these functions (ZeroDivisionError,
    IndexError, KeyError, ValueError) are modelled as distinct kinds.
-/

namespace Nansat

/-- Python exceptions observable from the embedded functions.  The
`opt*` constructors are `OptionError` (the spec's `InvalidExtentError`)
with its format arguments kept structurally:
  * `optGroupCount n`  = `'_create_extentDic requires exactly 2 parameters (n given)'`
  * `optBadName s`     = `'Expeced parameter is te, lle, ts, tr. (s given)'`
  * `optWrongCount o s g` = `'o requires exactly s parameters (g given)'`
  * `optNotNumeric`    = `'Input values must be int or float'`
  * `optIllegalExtent` = `'The extent is illegal "-te xMin yMin xMax yMax"'`
  * `optTrTooLarge w h` = `'"-tr" is too large. width is w, height is h '`
The remaining constructors are raw Python runtime errors. -/
inductive PyErr where
  | optGroupCount (given : ℕ)
  | optBadName (given : List Char)
  | optWrongCount (opt : List Char) (size given : ℕ)
  | optNotNumeric
  | optIllegalExtent
  | optTrTooLarge (width height : ℚ)
  | zeroDivisionError
  | valueError
  | indexError
  | keyError
  deriving DecidableEq, Repr

/-- Predicate: the exception is an `OptionError` (the documented
`InvalidExtentError`), as opposed to a raw Python runtime error. -/
def PyErr.isOptionError : PyErr → Bool
  | .optGroupCount _ => true
  | .optBadName _ => true
  | .optWrongCount _ _ _ => true
  | .optNotNumeric => true
  | .optIllegalExtent => true
  | .optTrTooLarge _ _ => true
  | _ => false

/-- Python whitespace characters recognised by `str.split()` and
`str.strip()`: space, tab, newline, carriage return, vertical tab,
form feed. -/
def pyIsSpace (c : Char) : Bool :=
  c = ' ' || c = '\t' || c = '\n' || c = '\r' || c = Char.ofNat 11 || c = Char.ofNat 12

/-- Python `str.strip()`: drop leading and trailing whitespace. -/
def pyStrip (cs : List Char) : List Char :=
  ((cs.dropWhile pyIsSpace).reverse.dropWhile pyIsSpace).reverse

/-- Python `str.split('-')`: split at every hyphen, keeping empty
segments (so the result has one more element than the number of
hyphens). -/
def pySplitHyphen : List Char → List (List Char)
  | [] => [[]]
  | c :: rest =>
    if c = '-' then [] :: pySplitHyphen rest
    else
      match pySplitHyphen rest with
      | [] => [[c]]
      | g :: gs => (c :: g) :: gs

/-- Helper for `pySplitWs`: accumulates the current (reversed) token. -/
def pySplitWsAux (acc : List Char) : List Char → List (List Char)
  | [] => if acc.isEmpty then [] else [acc.reverse]
  | c :: rest =>
    if pyIsSpace c then
      if acc.isEmpty then pySplitWsAux [] rest
      else acc.reverse :: pySplitWsAux [] rest
    else pySplitWsAux (c :: acc) rest

/-- Python `str.split()` with no argument: split on whitespace runs and
discard empty tokens. -/
def pySplitWs (cs : List Char) : List (List Char) :=
  pySplitWsAux [] cs

/-- Numeric value of a list of decimal digit characters. -/
def digitsVal (ds : List Char) : ℕ :=
  ds.foldl (fun a c => 10 * a + (c.toNat - 48)) 0

/-- Optional leading sign of a Python float literal: returns (isNegative,
remaining characters). -/
def pySign (cs : List Char) : Bool × List Char :=
  match cs with
  | c :: rest =>
    if c = '-' then (true, rest)
    else if c = '+' then (false, rest)
    else (false, c :: rest)
  | [] => (false, [])

/-- Value of an optional fractional digit block. -/
def fracVal : Option (List Char) → ℚ
  | some ds => (digitsVal ds : ℚ) / 10 ^ ds.length
  | none => 0

/-- Longest leading run of decimal digits, and the remainder. -/
def spanDigits : List Char → List Char × List Char
  | [] => ([], [])
  | c :: rest =>
    if c.isDigit then
      let r := spanDigits rest
      (c :: r.1, r.2)
    else ([], c :: rest)

/-- Python `float(token)` on a whitespace-free token, modelling finite
decimal literals `[sign] (digits [. digits] | . digits) [(e|E) [sign] digits]`
exactly over ℚ; returns `none` where CPython raises ValueError. -/
def pyFloat (cs : List Char) : Option ℚ :=
  let s := pySign cs
  let ipr := spanDigits s.2
  let fpr : Option (List Char) × List Char :=
    match ipr.2 with
    | '.' :: rest => (some (spanDigits rest).1, (spanDigits rest).2)
    | other => (none, other)
  let ok : Bool := !ipr.1.isEmpty || (match fpr.1 with | some f => !f.isEmpty | none => false)
  let mant : ℚ := (digitsVal ipr.1 : ℚ) + fracVal fpr.1
  let signed : ℚ := if s.1 then -mant else mant
  match fpr.2 with
  | [] => if ok then some signed else none
  | c :: rest =>
    if c = 'e' ∨ c = 'E' then
      let es := pySign rest
      let edr := spanDigits es.2
      if ok ∧ !edr.1.isEmpty ∧ edr.2.isEmpty then
        some (if es.1 then signed / 10 ^ digitsVal edr.1 else signed * 10 ^ digitsVal edr.1)
      else none
    else none

/-- Python `[float(el) for el in tokens]`: all tokens must parse. -/
def floatList : List (List Char) → Option (List ℚ)
  | [] => some []
  | t :: ts =>
    match pyFloat t, floatList ts with
    | some q, some qs => some (q :: qs)
    | _, _ => none

/-- The extent dictionary: keys are option-name tokens, values the
parsed numbers, in Python dict insertion order. -/
abbrev ExtentDict := List (List Char × List ℚ)

/-- Python `d[key]` lookup (as an Option; `none` models KeyError). -/
def dictGet : ExtentDict → List Char → Option (List ℚ)
  | [], _ => none
  | (k, v) :: rest, key => if k = key then some v else dictGet rest key

/-- Python `key in d.keys()`. -/
def dictHasKey (d : ExtentDict) (key : List Char) : Bool :=
  (dictGet d key).isSome

/-- Python `d[key] = v`: overwrite an existing binding or append a new
one. -/
def dictSet (d : ExtentDict) (key : List Char) (v : List ℚ) : ExtentDict :=
  if dictHasKey d key then
    d.map fun p => if p.1 = key then (key, v) else p
  else d ++ [(key, v)]

/-- Token constant for the option name `te`. -/
def teKey : List Char := ['t', 'e']

/-- Token constant for the option name `lle`. -/
def lleKey : List Char := ['l', 'l', 'e']

/-- Token constant for the option name `ts`. -/
def tsKey : List Char := ['t', 's']

/-- Token constant for the option name `tr`. -/
def trKey : List Char := ['t', 'r']

/-- Domain._check_extent_input (domain.py lines 460-471): validate one
whitespace-split option group against the allowed names and the required
number of numeric values.  `option_vars[0]` on an empty group raises
IndexError; a token rejected by `float` raises ValueError, caught and
re-raised as the `optNotNumeric` OptionError; a wrong value count raises
the `optWrongCount` OptionError; an unrecognised name raises the
`optBadName` OptionError. -/
def check_extent_input (option_vars : List (List Char)) (params : List (List Char))
    (size : ℕ) : Except PyErr Unit :=
  match option_vars with
  | [] => .error .indexError
  | name :: vals =>
    if name ∈ params then
      match floatList vals with
      | some fs =>
        if fs.length ≠ size then .error (.optWrongCount name size vals.length)
        else .ok ()
      | none => .error .optNotNumeric
    else .error (.optBadName name)

/-- One iteration of the dict-building loop of Domain._create_extent_dict
(domain.py line 513-514): `extent[option[0]] = [float(el) for el in option[1:]]`,
with the raw IndexError/ValueError it would raise on unvalidated input. -/
def parseGroupKV : List (List Char) → Except PyErr (List Char × List ℚ)
  | [] => .error .indexError
  | name :: vals =>
    match floatList vals with
    | some fs => .ok (name, fs)
    | none => .error .valueError

/-- Domain._create_extent_dict (domain.py lines 473-516) over the
character list of the extent string: strip, split on hyphens, drop the
segment before the first hyphen, require exactly two groups, validate
the first group against {te, lle} with 4 values and the second against
{ts, tr} with 2 values, then build the dictionary. -/
def create_extent_dict_chars (extent_str : List Char) : Except PyErr ExtentDict :=
  let options := (pySplitHyphen (pyStrip extent_str)).drop 1
  if options.length = 2 then
    let g1 := pySplitWs (options.getD 0 [])
    let g2 := pySplitWs (options.getD 1 [])
    match check_extent_input g1 [teKey, lleKey] 4 with
    | .error e => .error e
    | .ok _ =>
      match check_extent_input g2 [tsKey, trKey] 2 with
      | .error e => .error e
      | .ok _ =>
        match parseGroupKV g1 with
        | .error e => .error e
        | .ok kv1 =>
          match parseGroupKV g2 with
          | .error e => .error e
          | .ok kv2 => .ok (dictSet (dictSet [] kv1.1 kv1.2) kv2.1 kv2.2)
  else .error (.optGroupCount options.length)

/-- Domain._create_extent_dict on a Lean string. -/
def create_extent_dict (extent_str : String) : Except PyErr ExtentDict :=
  create_extent_dict_chars extent_str.data

/-- Domain._convert_extentDic (domain.py lines 418-457), parameterised
over the external coordinate transformation
`osr.CoordinateTransformation(NSR(), dstSRS).TransformPoint` (an
external collaborator; only its x and y outputs are used).  The four
corners of the `lle` box are transformed, the componentwise min and max
are taken, and the result is stored under the key `te` in the SAME
dictionary, which is returned. -/
def convert_extentDic (transformPoint : ℚ → ℚ → ℚ × ℚ) (extentDic : ExtentDict) :
    Except PyErr ExtentDict :=
  match dictGet extentDic lleKey with
  | none => .error .keyError
  | some lle =>
    match lle with
    | l0 :: l1 :: l2 :: l3 :: _ =>
      let p1 := transformPoint l0 l3
      let p2 := transformPoint l2 l3
      let p3 := transformPoint l2 l1
      let p4 := transformPoint l0 l1
      let minX := min p1.1 (min p2.1 (min p3.1 p4.1))
      let maxX := max p1.1 (max p2.1 (max p3.1 p4.1))
      let minY := min p1.2 (min p2.2 (min p3.2 p4.2))
      let maxY := max p1.2 (max p2.2 (max p3.2 p4.2))
      .ok (dictSet extentDic teKey [minX, minY, maxX, maxY])
    | _ => .error .indexError

/-- Domain._transform_tr (domain.py lines 722-751): resolution branch.
`resolution_x = tr_arr[0]`, `resolution_y = -(tr_arr[1])`; raises the
`optTrTooLarge` OptionError when `width < resolution_x or height <
resolution_y` (the literal comparison, against the already-negated
resolution_y); otherwise `raster_x_size = width / resolution_x` and
`raster_y_size = abs(height / resolution_y)`, with ZeroDivisionError
where CPython would divide by zero. -/
def transform_tr (width height : ℚ) (tr_arr : List ℚ) :
    Except PyErr (ℚ × ℚ × ℚ × ℚ) :=
  match tr_arr with
  | t0 :: t1 :: _ =>
    let resolution_x := t0
    let resolution_y := -t1
    if width < resolution_x ∨ height < resolution_y then
      .error (.optTrTooLarge width height)
    else if resolution_x = 0 then .error .zeroDivisionError
    else if resolution_y = 0 then .error .zeroDivisionError
    else .ok (resolution_x, resolution_y, width / resolution_x, |height / resolution_y|)
  | _ => .error .indexError

/-- Domain._transform_ts (domain.py lines 753-759): size branch.
`raster_x_size, raster_y_size = ts_arr` (tuple unpacking: ValueError
unless exactly two elements); `resolution_x = width / raster_x_size`,
`resolution_y = -abs(height / raster_y_size)`, with ZeroDivisionError
where CPython would divide by zero. -/
def transform_ts (width height : ℚ) (ts_arr : List ℚ) :
    Except PyErr (ℚ × ℚ × ℚ × ℚ) :=
  match ts_arr with
  | [raster_x_size, raster_y_size] =>
    if raster_x_size = 0 then .error .zeroDivisionError
    else if raster_y_size = 0 then .error .zeroDivisionError
    else .ok (width / raster_x_size, -|height / raster_y_size|,
              raster_x_size, raster_y_size)
  | _ => .error .valueError

/-- Python `int(x)` on a float: truncation toward zero. -/
def ratTrunc (q : ℚ) : ℤ :=
  Int.tdiv q.num q.den

/-- Domain._get_geotransform (domain.py lines 680-720): read the `te`
box, require positive width and height (else the `optIllegalExtent`
OptionError), dispatch on the presence of the `tr` key to
`transform_tr` or else look up `ts` for `transform_ts`, and assemble
`[te[0], resolution_x, 0.0, te[3], 0.0, resolution_y]` with the raster
sizes truncated by `int(...)`. -/
def get_geotransform (extent_dict : ExtentDict) :
    Except PyErr (List ℚ × ℤ × ℤ) :=
  match dictGet extent_dict teKey with
  | none => .error .keyError
  | some te =>
    match te with
    | x0 :: y0 :: x1 :: y1 :: _ =>
      let width := x1 - x0
      let height := y1 - y0
      if width ≤ 0 ∨ height ≤ 0 then .error .optIllegalExtent
      else
        let branch : Except PyErr (ℚ × ℚ × ℚ × ℚ) :=
          match dictGet extent_dict trKey with
          | some tr => transform_tr width height tr
          | none =>
            match dictGet extent_dict tsKey with
            | some ts => transform_ts width height ts
            | none => .error .keyError
        match branch with
        | .error e => .error e
        | .ok (rx, ry, rw, rh) =>
          .ok ([x0, rx, 0, y1, 0, ry], ratTrunc rw, ratTrunc rh)
    | _ => .error .indexError

/-! ### Helper lemmas about the character-level functions -/

/-- A decimal digit character is neither a hyphen nor a plus sign. -/
theorem isDigit_ne_sign {c : Char} (h : c.isDigit) : c ≠ '-' ∧ c ≠ '+' := by
  constructor <;> rintro rfl <;> simp [Char.isDigit] at h

/-- On an all-digit run, `spanDigits` consumes the whole input. -/
theorem spanDigits_all (cs : List Char) (h : ∀ c ∈ cs, c.isDigit) :
    spanDigits cs = (cs, []) := by
  induction cs with
  | nil => rfl
  | cons c rest ih =>
    have hc : c.isDigit := h c (List.mem_cons_self c rest)
    have hrest : ∀ x ∈ rest, x.isDigit := fun x hx => h x (List.mem_cons_of_mem c hx)
    simp [spanDigits, hc, ih hrest]

/-- If the string does not start with an explicit sign, `pySign` keeps it
unchanged and reports a non-negative sign. -/
theorem pySign_no_sign {cs : List Char} (h1 : cs.head? ≠ some '-') (h2 : cs.head? ≠ some '+') :
    pySign cs = (false, cs) := by
  cases cs with
  | nil => rfl
  | cons c rest =>
    simp only [List.head?_cons, ne_eq, Option.some.injEq] at h1 h2
    simp [pySign, h1, h2]

/-- Python `float` on a nonempty all-digit token returns its decimal value. -/
theorem pyFloat_digits (cs : List Char) (hne : cs ≠ []) (h : ∀ c ∈ cs, c.isDigit) :
    pyFloat cs = some (digitsVal cs : ℚ) := by
  obtain ⟨c, rest, rfl⟩ : ∃ c rest, cs = c :: rest := by
    cases cs with
    | nil => exact absurd rfl hne
    | cons c rest => exact ⟨c, rest, rfl⟩
  have hc := isDigit_ne_sign (h c (List.mem_cons_self c rest))
  have hsign : pySign (c :: rest) = (false, c :: rest) := by
    simp [pySign, hc.1, hc.2]
  simp [pyFloat, hsign, spanDigits_all _ h, fracVal]

/-- The fractional-part value is never negative. -/
theorem fracVal_nonneg (o : Option (List Char)) : 0 ≤ fracVal o := by
  cases o with
  | none => simp [fracVal]
  | some ds =>
    simp only [fracVal]
    positivity

/-- A token that contains no hyphen cannot carry a negative sign, so its
parsed value is non-negative. -/
theorem pyFloat_nonneg {cs : List Char} (h : '-' ∉ cs) {q : ℚ}
    (hq : pyFloat cs = some q) : 0 ≤ q := by
  have hsign : pySign cs = (false, (pySign cs).2) := by
    cases cs with
    | nil => rfl
    | cons c rest =>
      have hc : c ≠ '-' := fun hc => h (hc ▸ List.mem_cons_self c rest)
      by_cases hp : c = '+' <;> simp [pySign, hc, hp]
  have hmant : (0:ℚ) ≤ (digitsVal (spanDigits (pySign cs).2).1 : ℚ) +
      fracVal (match (spanDigits (pySign cs).2).2 with
        | '.' :: rest => (some (spanDigits rest).1, (spanDigits rest).2)
        | other => (none, other)).1 :=
    add_nonneg (Nat.cast_nonneg _) (fracVal_nonneg _)
  simp only [pyFloat] at hq
  rw [hsign] at hq
  simp only at hq
  split at hq
  · split at hq
    · rw [Option.some.injEq] at hq
      subst hq
      exact hmant
    · exact absurd hq (by simp)
  · split at hq
    · split at hq
      · rw [Option.some.injEq] at hq
        subst hq
        split
        · exact div_nonneg hmant (by positivity)
        · exact mul_nonneg hmant (by positivity)
      · exact absurd hq (by simp)
    · exact absurd hq (by simp)

/-- Values produced by `floatList` from hyphen-free tokens are
non-negative. -/
theorem floatList_nonneg {ts : List (List Char)} {qs : List ℚ}
    (h : ∀ t ∈ ts, '-' ∉ t) (hq : floatList ts = some qs) : ∀ q ∈ qs, 0 ≤ q := by
  induction ts generalizing qs with
  | nil =>
    simp only [floatList, Option.some.injEq] at hq
    subst hq
    simp
  | cons t ts ih =>
    simp only [floatList] at hq
    rcases hpt : pyFloat t with _ | q0 <;> rw [hpt] at hq
    · exact absurd hq (by simp)
    · rcases hft : floatList ts with _ | qs0 <;> rw [hft] at hq
      · exact absurd hq (by simp)
      · rw [Option.some.injEq] at hq
        subst hq
        intro q hmem
        rcases List.mem_cons.mp hmem with rfl | hmem
        · exact pyFloat_nonneg (h t (List.mem_cons_self t ts)) hpt
        · exact ih (fun u hu => h u (List.mem_cons_of_mem t hu)) hft q hmem

/-- The number of groups returned by the hyphen split is the hyphen
count plus one. -/
theorem pySplitHyphen_length (cs : List Char) :
    (pySplitHyphen cs).length = cs.count '-' + 1 := by
  induction cs with
  | nil => rfl
  | cons c rest ih =>
    by_cases hc : c = '-'
    · subst hc
      simp [pySplitHyphen, List.count_cons, ih]
    · simp only [pySplitHyphen, if_neg hc]
      cases hr : pySplitHyphen rest with
      | nil =>
        rw [hr] at ih
        simp at ih
      | cons g gs =>
        rw [hr] at ih
        have hcc : Ne c '-' := hc
        simp only [List.count_cons, List.length_cons, beq_iff_eq, hcc, hcc.symm,
          if_false] at ih ⊢
        omega

/-- No group produced by the hyphen split contains a hyphen. -/
theorem pySplitHyphen_no_hyphen {cs g : List Char}
    (hg : g ∈ pySplitHyphen cs) : '-' ∉ g := by
  induction cs generalizing g with
  | nil =>
    simp only [pySplitHyphen, List.mem_singleton] at hg
    subst hg
    simp
  | cons c rest ih =>
    by_cases hc : c = '-'
    · subst hc
      rw [show pySplitHyphen ('-' :: rest) = [] :: pySplitHyphen rest from by
        simp [pySplitHyphen]] at hg
      rcases List.mem_cons.mp hg with rfl | hg
      · simp
      · exact ih hg
    · simp only [pySplitHyphen, if_neg hc] at hg
      cases hr : pySplitHyphen rest with
      | nil =>
        rw [hr] at hg
        simp only [List.mem_singleton] at hg
        subst hg
        simp [Ne.symm hc]
      | cons g0 gs =>
        rw [hr] at hg
        rcases List.mem_cons.mp hg with rfl | hmem
        · intro hin
          rcases List.mem_cons.mp hin with heq | hin0
          · exact hc heq.symm
          · exact ih (hr ▸ List.mem_cons_self g0 gs) hin0
        · exact ih (hr ▸ List.mem_cons_of_mem g0 hmem)

/-- Every character of every token produced by the whitespace split
comes from the accumulator or from the input. -/
theorem pySplitWsAux_subset (cs : List Char) : ∀ (acc t : List Char),
    t ∈ pySplitWsAux acc cs → ∀ c ∈ t, c ∈ acc ∨ c ∈ cs := by
  induction cs with
  | nil =>
    intro acc t ht c hc
    simp only [pySplitWsAux] at ht
    split at ht
    · exact absurd ht (by simp)
    · simp only [List.mem_singleton] at ht
      subst ht
      exact Or.inl (List.mem_reverse.mp hc)
  | cons c0 rest ih =>
    intro acc t ht c hc
    simp only [pySplitWsAux] at ht
    split at ht
    · split at ht
      · rcases ih [] t ht c hc with h0 | h0
        · exact absurd h0 (List.not_mem_nil c)
        · exact Or.inr (List.mem_cons_of_mem c0 h0)
      · rcases List.mem_cons.mp ht with rfl | hmem
        · exact Or.inl (List.mem_reverse.mp hc)
        · rcases ih [] t hmem c hc with h0 | h0
          · exact absurd h0 (List.not_mem_nil c)
          · exact Or.inr (List.mem_cons_of_mem c0 h0)
    · rcases ih (c0 :: acc) t ht c hc with h0 | h0
      · rcases List.mem_cons.mp h0 with rfl | hmem
        · exact Or.inr (List.mem_cons_self c rest)
        · exact Or.inl hmem
      · exact Or.inr (List.mem_cons_of_mem c0 h0)

/-- Tokens of the whitespace split draw their characters from the input. -/
theorem pySplitWs_subset {cs t : List Char} (ht : t ∈ pySplitWs cs) :
    ∀ c ∈ t, c ∈ cs := by
  intro c hc
  rcases pySplitWsAux_subset cs [] t ht c hc with h0 | h0
  · exact absurd h0 (List.not_mem_nil c)
  · exact h0

/-- What a successful `check_extent_input` guarantees about the group. -/
theorem check_extent_input_ok {g params : List (List Char)} {size : ℕ} {u : Unit}
    (h : check_extent_input g params size = .ok u) :
    ∃ name vals fs, g = name :: vals ∧ name ∈ params ∧
      floatList vals = some fs ∧ fs.length = size := by
  cases g with
  | nil => exact absurd h (by simp [check_extent_input])
  | cons name vals =>
    simp only [check_extent_input] at h
    split at h
    · rename_i hmem
      split at h
      · rename_i fs hfl
        split at h
        · exact absurd h (by simp)
        · rename_i hlen
          exact ⟨name, vals, fs, rfl, hmem, hfl, by omega⟩
      · exact absurd h (by simp)
    · exact absurd h (by simp)

/-- A group that passes validation is turned into a key/value pair by
the dict-building loop, re-parsing the same tokens. -/
theorem parseGroupKV_of_check {g params : List (List Char)} {size : ℕ} {u : Unit}
    (h : check_extent_input g params size = .ok u) :
    ∃ name vals fs, g = name :: vals ∧ name ∈ params ∧ floatList vals = some fs ∧
      fs.length = size ∧ parseGroupKV g = .ok (name, fs) := by
  obtain ⟨name, vals, fs, rfl, hmem, hfl, hlen⟩ := check_extent_input_ok h
  exact ⟨name, vals, fs, rfl, hmem, hfl, hlen, by simp [parseGroupKV, hfl]⟩

/-- Setting a key in the empty dict yields a one-entry dict. -/
theorem dictSet_nil (k : List Char) (v : List ℚ) : dictSet [] k v = [(k, v)] := by
  simp [dictSet, dictHasKey, dictGet]

/-- Setting a fresh key appends it after the existing single entry. -/
theorem dictSet_single_ne {k1 k2 : List Char} (v1 v2 : List ℚ) (h : k1 ≠ k2) :
    dictSet [(k1, v1)] k2 v2 = [(k1, v1), (k2, v2)] := by
  simp [dictSet, dictHasKey, dictGet, h]

/-- Structure of every dictionary the parser can return: exactly two
entries, the first named `te` or `lle` with 4 values, the second named
`ts` or `tr` with 2 values, and every value non-negative (value tokens
cannot contain a minus sign, because the hyphen split already consumed
every hyphen). -/
theorem create_extent_dict_chars_ok {cs : List Char} {d : ExtentDict}
    (h : create_extent_dict_chars cs = .ok d) :
    ∃ n1 v1 n2 v2, d = [(n1, v1), (n2, v2)] ∧ (n1 = teKey ∨ n1 = lleKey) ∧
      (n2 = tsKey ∨ n2 = trKey) ∧ v1.length = 4 ∧ v2.length = 2 ∧
      (∀ q ∈ v1, 0 ≤ q) ∧ (∀ q ∈ v2, 0 ≤ q) := by
  simp only [create_extent_dict_chars] at h
  split at h
  case isFalse => exact absurd h (by simp)
  case isTrue hlen =>
    obtain ⟨o1, o2, hoo⟩ := List.length_eq_two.mp hlen
    rw [hoo] at h
    rw [show [o1, o2].getD 0 ([] : List Char) = o1 from rfl,
        show [o1, o2].getD 1 ([] : List Char) = o2 from rfl] at h
    split at h
    · exact absurd h (by simp)
    rename_i u1 hchk1
    split at h
    · exact absurd h (by simp)
    rename_i u2 hchk2
    split at h
    · exact absurd h (by simp)
    rename_i kv1 hkv1
    split at h
    · exact absurd h (by simp)
    rename_i kv2 hkv2
    rw [Except.ok.injEq] at h
    obtain ⟨name1, vals1, fs1, hg1, hmem1, hfl1, hlen1, hpg1⟩ := parseGroupKV_of_check hchk1
    obtain ⟨name2, vals2, fs2, hg2, hmem2, hfl2, hlen2, hpg2⟩ := parseGroupKV_of_check hchk2
    rw [hpg1, Except.ok.injEq] at hkv1
    rw [hpg2, Except.ok.injEq] at hkv2
    subst hkv1
    subst hkv2
    have hmem1' : name1 = teKey ∨ name1 = lleKey := by simpa using hmem1
    have hmem2' : name2 = tsKey ∨ name2 = trKey := by simpa using hmem2
    have hne : name1 ≠ name2 := by
      rcases hmem1' with rfl | rfl <;> rcases hmem2' with rfl | rfl <;> decide
    have hnn1 : ∀ q ∈ fs1, 0 ≤ q := by
      refine floatList_nonneg (fun t ht => ?_) hfl1
      have hto1 : t ∈ pySplitWs o1 := by
        rw [hg1]
        exact List.mem_cons_of_mem name1 ht
      intro habs
      have hd1 : o1 ∈ (pySplitHyphen (pyStrip cs)).drop 1 := by
        rw [hoo]
        exact List.mem_cons_self o1 [o2]
      exact pySplitHyphen_no_hyphen (List.mem_of_mem_drop hd1)
        (pySplitWs_subset hto1 '-' habs)
    have hnn2 : ∀ q ∈ fs2, 0 ≤ q := by
      refine floatList_nonneg (fun t ht => ?_) hfl2
      have hto2 : t ∈ pySplitWs o2 := by
        rw [hg2]
        exact List.mem_cons_of_mem name2 ht
      intro habs
      have hd2 : o2 ∈ (pySplitHyphen (pyStrip cs)).drop 1 := by
        rw [hoo]
        exact List.mem_cons_of_mem o1 (List.mem_cons_self o2 [])
      exact pySplitHyphen_no_hyphen (List.mem_of_mem_drop hd2)
        (pySplitWs_subset hto2 '-' habs)
    refine ⟨name1, fs1, name2, fs2, ?_, hmem1', hmem2', hlen1, hlen2, hnn1, hnn2⟩
    rw [← h]
    show dictSet (dictSet [] name1 fs1) name2 fs2 = [(name1, fs1), (name2, fs2)]
    rw [dictSet_nil, dictSet_single_ne _ _ hne]

/-- On a list of nonempty all-digit tokens, `floatList` returns the
decimal values. -/
theorem floatList_digits (ts : List (List Char))
    (h : ∀ t ∈ ts, t ≠ [] ∧ ∀ c ∈ t, c.isDigit) :
    floatList ts = some (ts.map fun t => (digitsVal t : ℚ)) := by
  induction ts with
  | nil => rfl
  | cons t ts ih =>
    have ht := h t (List.mem_cons_self t ts)
    simp [floatList, pyFloat_digits t ht.1 ht.2,
      ih fun u hu => h u (List.mem_cons_of_mem t hu)]

/-- Evaluation rule for a successful concrete parse: once the purely
character-level stages are fixed, the resulting dictionary follows. -/
theorem create_extent_dict_eval {s : String} {o1 o2 n1 n2 : List Char}
    {v1 v2 : List (List Char)} {q1 q2 : List ℚ}
    (hsplit : (pySplitHyphen (pyStrip s.data)).drop 1 = [o1, o2])
    (hg1 : pySplitWs o1 = n1 :: v1) (hg2 : pySplitWs o2 = n2 :: v2)
    (hn1 : n1 ∈ [teKey, lleKey]) (hn2 : n2 ∈ [tsKey, trKey])
    (hq1 : floatList v1 = some q1) (hq2 : floatList v2 = some q2)
    (hl1 : q1.length = 4) (hl2 : q2.length = 2) :
    create_extent_dict s = .ok [(n1, q1), (n2, q2)] := by
  have hne : n1 ≠ n2 := by
    have h1 : n1 = teKey ∨ n1 = lleKey := by simpa using hn1
    have h2 : n2 = tsKey ∨ n2 = trKey := by simpa using hn2
    rcases h1 with rfl | rfl <;> rcases h2 with rfl | rfl <;> decide
  have hc1 : check_extent_input (n1 :: v1) [teKey, lleKey] 4 = .ok () := by
    simp [check_extent_input, hn1, hq1, hl1]
  have hc2 : check_extent_input (n2 :: v2) [tsKey, trKey] 2 = .ok () := by
    simp [check_extent_input, hn2, hq2, hl2]
  have hp1 : parseGroupKV (n1 :: v1) = .ok (n1, q1) := by
    simp [parseGroupKV, hq1]
  have hp2 : parseGroupKV (n2 :: v2) = .ok (n2, q2) := by
    simp [parseGroupKV, hq2]
  simp only [create_extent_dict, create_extent_dict_chars]
  rw [hsplit]
  rw [show [o1, o2].getD 0 ([] : List Char) = o1 from rfl,
      show [o1, o2].getD 1 ([] : List Char) = o2 from rfl, hg1, hg2]
  simp [hc1, hc2, hp1, hp2, dictSet_nil, dictSet_single_ne _ _ hne]

/-- Evaluation rule for a concrete parse that fails because the first
group's option name is not `te` or `lle`. -/
theorem create_extent_dict_eval_badname {s : String} {o1 o2 n1 : List Char}
    {v1 : List (List Char)}
    (hsplit : (pySplitHyphen (pyStrip s.data)).drop 1 = [o1, o2])
    (hg1 : pySplitWs o1 = n1 :: v1) (hn1 : n1 ∉ [teKey, lleKey]) :
    create_extent_dict s = .error (.optBadName n1) := by
  have hc1 : check_extent_input (n1 :: v1) [teKey, lleKey] 4 =
      .error (.optBadName n1) := by
    simp [check_extent_input, hn1]
  simp only [create_extent_dict, create_extent_dict_chars]
  rw [hsplit]
  rw [show [o1, o2].getD 0 ([] : List Char) = o1 from rfl, hg1]
  simp [hc1]

/-- Python `int` truncation agrees with the floor on non-negative
arguments. -/
theorem ratTrunc_eq_floor {q : ℚ} (hq : 0 ≤ q) : ratTrunc q = ⌊q⌋ := by
  rw [ratTrunc, Rat.floor_def]
  exact Int.tdiv_eq_ediv (Rat.num_nonneg.mpr hq) (Int.natCast_nonneg _)

/-- Truncation of non-negative rationals is non-negative. -/
theorem ratTrunc_nonneg {q : ℚ} (hq : 0 ≤ q) : 0 ≤ ratTrunc q :=
  Int.tdiv_nonneg (Rat.num_nonneg.mpr hq) (Int.natCast_nonneg _)

/-- What a successful tr branch guarantees. -/
theorem transform_tr_ok {w h : ℚ} {tr : List ℚ} {r : ℚ × ℚ × ℚ × ℚ}
    (hok : transform_tr w h tr = .ok r) :
    ∃ t0 t1 rest, tr = t0 :: t1 :: rest ∧ r = (t0, -t1, w / t0, |h / -t1|) ∧
      ¬(w < t0 ∨ h < -t1) ∧ t0 ≠ 0 ∧ -t1 ≠ 0 := by
  cases tr with
  | nil => exact absurd hok (by simp [transform_tr])
  | cons t0 tl =>
    cases tl with
    | nil => exact absurd hok (by simp [transform_tr])
    | cons t1 rest =>
      simp only [transform_tr] at hok
      split at hok
      · exact absurd hok (by simp)
      split at hok
      · exact absurd hok (by simp)
      split at hok
      · exact absurd hok (by simp)
      rw [Except.ok.injEq] at hok
      rename_i hguard ht0 ht1
      exact ⟨t0, t1, rest, rfl, hok.symm, hguard, ht0, ht1⟩

/-- What a successful ts branch guarantees. -/
theorem transform_ts_ok {w h : ℚ} {ts : List ℚ} {r : ℚ × ℚ × ℚ × ℚ}
    (hok : transform_ts w h ts = .ok r) :
    ∃ x y, ts = [x, y] ∧ r = (w / x, -|h / y|, x, y) ∧ x ≠ 0 ∧ y ≠ 0 := by
  match ts with
  | [] => exact absurd hok (by simp [transform_ts])
  | [x] => exact absurd hok (by simp [transform_ts])
  | x :: y :: z :: tl => exact absurd hok (by simp [transform_ts])
  | [x, y] =>
    simp only [transform_ts] at hok
    split at hok
    · exact absurd hok (by simp)
    split at hok
    · exact absurd hok (by simp)
    rw [Except.ok.injEq] at hok
    rename_i hx hy
    exact ⟨x, y, rfl, hok.symm, hx, hy⟩

/-- What a successful derivation guarantees: the `te` box exists and is
strictly increasing in both axes, and the transform is assembled from
the branch results with truncated raster sizes. -/
theorem get_geotransform_ok {d : ExtentDict} {g : List ℚ} {a b : ℤ}
    (hok : get_geotransform d = .ok (g, a, b)) :
    ∃ x0 y0 x1 y1 rest rx ry rw rh,
      dictGet d teKey = some (x0 :: y0 :: x1 :: y1 :: rest) ∧
      ¬(x1 - x0 ≤ 0 ∨ y1 - y0 ≤ 0) ∧
      g = [x0, rx, 0, y1, 0, ry] ∧ a = ratTrunc rw ∧ b = ratTrunc rh ∧
      ((∃ tr, dictGet d trKey = some tr ∧
          transform_tr (x1 - x0) (y1 - y0) tr = .ok (rx, ry, rw, rh)) ∨
        (dictGet d trKey = none ∧ ∃ ts, dictGet d tsKey = some ts ∧
          transform_ts (x1 - x0) (y1 - y0) ts = .ok (rx, ry, rw, rh))) := by
  simp only [get_geotransform] at hok
  split at hok
  · exact absurd hok (by simp)
  rename_i te hte
  split at hok
  case _ x0 y0 x1 y1 rest =>
    split at hok
    · exact absurd hok (by simp)
    rename_i hguard
    split at hok
    · exact absurd hok (by simp)
    rename_i rxv ryv rwv rhv hbr
    rw [Except.ok.injEq, Prod.mk.injEq, Prod.mk.injEq] at hok
    obtain ⟨hg, ha, hb⟩ := hok
    refine ⟨x0, y0, x1, y1, rest, rxv, ryv, rwv, rhv, hte, hguard, hg.symm, ha.symm,
      hb.symm, ?_⟩
    rcases htr : dictGet d trKey with _ | tr <;> rw [htr] at hbr
    · right
      refine ⟨rfl, ?_⟩
      rcases hts : dictGet d tsKey with _ | ts <;> rw [hts] at hbr
      · exact absurd hbr (by simp)
      · exact ⟨ts, rfl, by simpa using hbr⟩
    · exact Or.inl ⟨tr, rfl, by simpa using hbr⟩
  case _ =>
    exact absurd hok (by simp)

/-- A list of length four is literally a four-element list. -/
theorem length_eq_four {α : Type _} {l : List α} (h : l.length = 4) :
    ∃ a b c d, l = [a, b, c, d] := by
  cases l with
  | nil => exact absurd h (by simp)
  | cons a l1 =>
  cases l1 with
  | nil => exact absurd h (by simp)
  | cons b l2 =>
  cases l2 with
  | nil => exact absurd h (by simp)
  | cons c l3 =>
  cases l3 with
  | nil => exact absurd h (by simp)
  | cons d l4 =>
  cases l4 with
  | nil => exact ⟨a, b, c, d, rfl⟩
  | cons e l5 =>
    rw [List.length_cons, List.length_cons, List.length_cons, List.length_cons,
      List.length_cons] at h
    omega

/-- Lookup in a two-entry dictionary. -/
theorem dictGet_pair {n1 n2 k : List Char} {v1 v2 v : List ℚ}
    (h : dictGet [(n1, v1), (n2, v2)] k = some v) :
    (n1 = k ∧ v = v1) ∨ (n1 ≠ k ∧ n2 = k ∧ v = v2) := by
  simp only [dictGet] at h
  split at h
  · rename_i h1
    rw [Option.some.injEq] at h
    exact Or.inl ⟨h1, h.symm⟩
  · rename_i h1
    split at h
    · rename_i h2
      rw [Option.some.injEq] at h
      exact Or.inr ⟨h1, h2, h.symm⟩
    · exact absurd h (by simp)

/-- Errors of `check_extent_input` are OptionErrors or the IndexError of
an empty option group. -/
theorem check_extent_input_error {g params : List (List Char)} {size : ℕ}
    {e : PyErr} (h : check_extent_input g params size = .error e) :
    e.isOptionError = true ∨ e = .indexError := by
  cases g with
  | nil =>
    simp only [check_extent_input, Except.error.injEq] at h
    exact Or.inr h.symm
  | cons name vals =>
    simp only [check_extent_input] at h
    split at h
    · split at h
      · split at h
        · rw [Except.error.injEq] at h
          subst h
          exact Or.inl rfl
        · exact absurd h (by simp)
      · rw [Except.error.injEq] at h
        subst h
        exact Or.inl rfl
    · rw [Except.error.injEq] at h
      subst h
      exact Or.inl rfl

/-- A wrong group count always yields the group-count OptionError whose
payload is the actual count. -/
theorem create_extent_dict_group_count_error (s : String)
    (h : ((pySplitHyphen (pyStrip s.data)).drop 1).length ≠ 2) :
    create_extent_dict s =
      .error (.optGroupCount ((pySplitHyphen (pyStrip s.data)).drop 1).length) := by
  simp only [create_extent_dict, create_extent_dict_chars]
  rw [if_neg h]

/-- Errors of the tr branch (with at least two resolution values) are
the documented `optTrTooLarge` OptionError or ZeroDivisionError. -/
theorem transform_tr_error {w h t0 t1 : ℚ} {rest : List ℚ} {e : PyErr}
    (he : transform_tr w h (t0 :: t1 :: rest) = .error e) :
    e = .optTrTooLarge w h ∨ e = .zeroDivisionError := by
  simp only [transform_tr] at he
  split at he
  · rw [Except.error.injEq] at he
    exact Or.inl he.symm
  split at he
  · rw [Except.error.injEq] at he
    exact Or.inr he.symm
  split at he
  · rw [Except.error.injEq] at he
    exact Or.inr he.symm
  · exact absurd he (by simp)

/-- Errors of the ts branch on exactly two size values are
ZeroDivisionError. -/
theorem transform_ts_error {w h x y : ℚ} {e : PyErr}
    (he : transform_ts w h [x, y] = .error e) : e = .zeroDivisionError := by
  simp only [transform_ts] at he
  split at he
  · rw [Except.error.injEq] at he
    exact he.symm
  split at he
  · rw [Except.error.injEq] at he
    exact he.symm
  · exact absurd he (by simp)

/-! ### Claim theorems -/

/-- C1 (counterexample): the claim "parsing with the ts/tr group first
yields the same mapping" is false: `parse("-tr 300 200 -te 100 2000 300
10000")` raises OptionError (unrecognised first option name `tr`)
instead of returning `{te: [100,2000,300,10000], tr: [300,200]}`, so the
two group orders do not yield the same result. -/
theorem create_extent_dict_group_order_swap_fails :
    create_extent_dict "-tr 300 200 -te 100 2000 300 10000" =
      .error (.optBadName trKey) ∧
    create_extent_dict "-tr 300 200 -te 100 2000 300 10000" ≠
      .ok [(teKey, [100, 2000, 300, 10000]), (trKey, [300, 200])] := by
  have hsplit : (pySplitHyphen
      (pyStrip ("-tr 300 200 -te 100 2000 300 10000" : String).data)).drop 1 =
      ["tr 300 200 ".data, "te 100 2000 300 10000".data] := by decide
  have hg1 : pySplitWs "tr 300 200 ".data = trKey :: [['3','0','0'], ['2','0','0']] := by
    decide
  have h : create_extent_dict "-tr 300 200 -te 100 2000 300 10000" =
      .error (.optBadName trKey) :=
    create_extent_dict_eval_badname hsplit hg1 (by decide)
  exact ⟨h, by rw [h]; exact fun hc => Except.noConfusion hc⟩

/-- C1 (amended): the parser classifies the groups by position, not by
option name: the te/lle group must come first and the ts/tr group
second.  `parse("-te 100 2000 300 10000 -tr 300 200")` returns
`{te: [100,2000,300,10000], tr: [300,200]}` as claimed, but the swapped
string `parse("-tr 300 200 -te 100 2000 300 10000")` is rejected with
OptionError (`Expeced parameter is te, lle, ts, tr. (tr given)` from
checking the first group against {te, lle}) instead of yielding the
same mapping. -/
theorem create_extent_dict_group_order :
    create_extent_dict "-te 100 2000 300 10000 -tr 300 200" =
      .ok [(teKey, [100, 2000, 300, 10000]), (trKey, [300, 200])] ∧
    create_extent_dict "-tr 300 200 -te 100 2000 300 10000" =
      .error (.optBadName trKey) := by
  constructor
  · have hq1 : floatList [['1','0','0'], ['2','0','0','0'], ['3','0','0'],
        ['1','0','0','0','0']] = some [100, 2000, 300, 10000] := by
      rw [floatList_digits _ (by decide)]
      rw [show List.map (fun t => (digitsVal t : ℚ))
          [['1','0','0'], ['2','0','0','0'], ['3','0','0'], ['1','0','0','0','0']]
          = [((100:ℕ):ℚ), ((2000:ℕ):ℚ), ((300:ℕ):ℚ), ((10000:ℕ):ℚ)] from rfl]
      norm_num
    have hq2 : floatList [['3','0','0'], ['2','0','0']] = some [300, 200] := by
      rw [floatList_digits _ (by decide)]
      rw [show List.map (fun t => (digitsVal t : ℚ)) [['3','0','0'], ['2','0','0']]
          = [((300:ℕ):ℚ), ((200:ℕ):ℚ)] from rfl]
      norm_num
    have hsplit : (pySplitHyphen
        (pyStrip ("-te 100 2000 300 10000 -tr 300 200" : String).data)).drop 1 =
        ["te 100 2000 300 10000 ".data, "tr 300 200".data] := by decide
    have hg1 : pySplitWs "te 100 2000 300 10000 ".data =
        teKey :: [['1','0','0'], ['2','0','0','0'], ['3','0','0'],
          ['1','0','0','0','0']] := by decide
    have hg2 : pySplitWs "tr 300 200".data =
        trKey :: [['3','0','0'], ['2','0','0']] := by decide
    exact create_extent_dict_eval hsplit hg1 hg2 (by decide) (by decide)
      hq1 hq2 (by rfl) (by rfl)
  · have hsplit : (pySplitHyphen
        (pyStrip ("-tr 300 200 -te 100 2000 300 10000" : String).data)).drop 1 =
        ["tr 300 200 ".data, "te 100 2000 300 10000".data] := by decide
    have hg1 : pySplitWs "tr 300 200 ".data =
        trKey :: [['3','0','0'], ['2','0','0']] := by decide
    exact create_extent_dict_eval_badname hsplit hg1 (by decide)

/-- C3: in the tr branch, with positive width and height, the
OptionError `"-tr" is too large` is raised exactly when
`width < tr[0]` or `height < -tr[1]` (the literal comparison against the
already-negated resolution); on success the results are
`resolution_x = tr[0]`, `resolution_y = -tr[1]`,
`raster_x_size = width / tr[0]`, `raster_y_size = |height / -tr[1]|`;
and `te = [0,0,100,50]`, `tr = [10,10]` yields the transform
`(0,10,0,50,0,-10)` with truncated raster size `(10,5)`. -/
theorem transform_tr_spec (w h t0 t1 : ℚ) (hw : 0 < w) (hh : 0 < h) :
    ((transform_tr w h [t0, t1] = .error (.optTrTooLarge w h)) ↔
      (w < t0 ∨ h < -t1)) ∧
    (∀ rx ry rw rh : ℚ, transform_tr w h [t0, t1] = .ok (rx, ry, rw, rh) →
      rx = t0 ∧ ry = -t1 ∧ rw = w / t0 ∧ rh = |h / -t1|) ∧
    get_geotransform [(teKey, [0, 0, 100, 50]), (trKey, [10, 10])] =
      .ok ([0, 10, 0, 50, 0, -10], 10, 5) := by
  refine ⟨⟨fun he => ?_, fun hguard => ?_⟩, fun rx ry rw rh hok => ?_, ?_⟩
  · by_contra hguard
    simp only [transform_tr, if_neg hguard] at he
    split at he
    · simp at he
    · split at he <;> simp at he
  · simp only [transform_tr]
    rw [if_pos hguard]
  · simp only [transform_tr] at hok
    split at hok
    · exact absurd hok (by simp)
    split at hok
    · exact absurd hok (by simp)
    split at hok
    · exact absurd hok (by simp)
    rw [Except.ok.injEq, Prod.mk.injEq, Prod.mk.injEq, Prod.mk.injEq] at hok
    exact ⟨hok.1.symm, hok.2.1.symm, hok.2.2.1.symm, hok.2.2.2.symm⟩
  · have h1 : dictGet [(teKey, [0, 0, 100, 50]), (trKey, [10, 10])] teKey =
        some [0, 0, 100, 50] := by simp [dictGet]
    have h2 : dictGet [(teKey, [0, 0, 100, 50]), (trKey, [10, 10])] trKey =
        some [10, 10] := by simp [dictGet, teKey, trKey]
    have h3 : transform_tr 100 50 [10, 10] = .ok (10, -10, 10, 5) := by
      norm_num [transform_tr, abs_div]
    simp only [get_geotransform, h1, h2]
    norm_num
    rw [h3]
    simp [ratTrunc]

/-- C3 (witness): the error-iff clause of `transform_tr_spec` at the
concrete input width 100, height 50, tr = [10, 10]. -/
theorem transform_tr_spec_witness :
    (transform_tr 100 50 [10, 10] = .error (.optTrTooLarge 100 50)) ↔
      ((100:ℚ) < 10 ∨ (50:ℚ) < -10) :=
  (transform_tr_spec 100 50 10 10 (by norm_num) (by norm_num)).1

/-- C6: in the ts branch, for non-zero sizes, the branch result is
`(width / ts[0], -|height / ts[1]|, ts[0], ts[1])`; the assembled
transform is `(xmin, resolution_x, 0, ymax, 0, resolution_y)` and the
returned sizes are truncated toward zero: `te = [0,0,100,100]`,
`ts = [100,100]` yields transform `(0,1,0,100,0,-1)` and size
`(100,100)`, and the fractional `ts = [4.6, 4.6]` on `te = [0,0,46,46]`
yields size `(4,4)` (truncation, not rounding, which would give 5). -/
theorem transform_ts_spec (w h x y : ℚ) (hx : x ≠ 0) (hy : y ≠ 0) :
    transform_ts w h [x, y] = .ok (w / x, -|h / y|, x, y) ∧
    get_geotransform [(teKey, [0, 0, 100, 100]), (tsKey, [100, 100])] =
      .ok ([0, 1, 0, 100, 0, -1], 100, 100) ∧
    get_geotransform [(teKey, [0, 0, 46, 46]), (tsKey, [23/5, 23/5])] =
      .ok ([0, 10, 0, 46, 0, -10], 4, 4) := by
  refine ⟨?_, ?_, ?_⟩
  · simp only [transform_ts]
    rw [if_neg hx, if_neg hy]
  · have h1 : dictGet [(teKey, [0, 0, 100, 100]), (tsKey, [100, 100])] teKey =
        some [0, 0, 100, 100] := by simp [dictGet]
    have h2 : dictGet [(teKey, [0, 0, 100, 100]), (tsKey, [100, 100])] trKey =
        none := by simp [dictGet, teKey, tsKey, trKey]
    have h3 : dictGet [(teKey, [0, 0, 100, 100]), (tsKey, [100, 100])] tsKey =
        some [100, 100] := by simp [dictGet, teKey, tsKey]
    have h4 : transform_ts 100 100 [100, 100] = .ok (1, -1, 100, 100) := by
      norm_num [transform_ts]
    simp only [get_geotransform, h1, h2, h3]
    norm_num
    rw [h4]
    simp [ratTrunc]
  · have h1 : dictGet [(teKey, [0, 0, 46, 46]), (tsKey, [23/5, 23/5])] teKey =
        some [0, 0, 46, 46] := by simp [dictGet]
    have h2 : dictGet [(teKey, [0, 0, 46, 46]), (tsKey, [23/5, 23/5])] trKey =
        none := by simp [dictGet, teKey, tsKey, trKey]
    have h3 : dictGet [(teKey, [0, 0, 46, 46]), (tsKey, [23/5, 23/5])] tsKey =
        some [23/5, 23/5] := by simp [dictGet, teKey, tsKey]
    have habs : |(46:ℚ) / (23/5)| = 10 := by
      rw [show (46:ℚ) / (23/5) = 10 from by norm_num]
      exact abs_of_pos (by norm_num)
    have h4 : transform_ts 46 46 [23/5, 23/5] = .ok (10, -10, 23/5, 23/5) := by
      simp only [transform_ts]
      rw [if_neg (by norm_num), if_neg (by norm_num)]
      rw [habs, show (46:ℚ) / (23/5) = 10 from by norm_num]
    have h5 : ratTrunc ((23:ℚ)/5) = 4 := by
      rw [ratTrunc_eq_floor (by norm_num), Int.floor_eq_iff]
      norm_num
    simp only [get_geotransform, h1, h2, h3]
    norm_num
    rw [h4]
    simp [h5]

/-- C6 (witness): the ts-branch formula clause of `transform_ts_spec`
at width 100, height 100, ts = [100, 100]. -/
theorem transform_ts_spec_witness :
    transform_ts 100 100 [100, 100] =
      .ok (100 / 100, -|(100:ℚ) / 100|, 100, 100) :=
  (transform_ts_spec 100 100 100 100 (by norm_num) (by norm_num)).1

/-- C8: in the tr branch, whenever the extent height and `tr[1]` are
both positive, the guard comparison `height < resolution_y` (against the
already-negated resolution) is false, so an OptionError can arise only
from `width < resolution_x`; the boundary case height 5 against
`tr = [10, 10]` (resolution_y = -10) raises no error and returns raster
height `int(abs(5 / -10)) = 0`. -/
theorem transform_tr_height_guard (w h t0 t1 : ℚ) (rest : List ℚ)
    (hh : 0 < h) (ht1 : 0 < t1) :
    (¬ h < -t1) ∧
    ((∃ e, transform_tr w h (t0 :: t1 :: rest) = .error e ∧
        e.isOptionError = true) ↔ w < t0) ∧
    get_geotransform [(teKey, [0, 0, 100, 5]), (trKey, [10, 10])] =
      .ok ([0, 10, 0, 5, 0, -10], 10, 0) := by
  have hhg : ¬ h < -t1 := by
    intro hlt
    have : -t1 < 0 := by linarith
    linarith
  refine ⟨hhg, ⟨fun hex => ?_, fun hlt => ?_⟩, ?_⟩
  · obtain ⟨e, he, hopt⟩ := hex
    by_contra hwlt
    have hguard : ¬(w < t0 ∨ h < -t1) := by
      rintro (h1 | h2)
      · exact hwlt h1
      · exact hhg h2
    simp only [transform_tr, if_neg hguard] at he
    split at he
    · rw [Except.error.injEq] at he
      subst he
      simp [PyErr.isOptionError] at hopt
    · split at he
      · rw [Except.error.injEq] at he
        subst he
        simp [PyErr.isOptionError] at hopt
      · exact absurd he (by simp)
  · refine ⟨.optTrTooLarge w h, ?_, rfl⟩
    simp only [transform_tr]
    rw [if_pos (Or.inl hlt)]
  · have h1 : dictGet [(teKey, [0, 0, 100, 5]), (trKey, [10, 10])] teKey =
        some [0, 0, 100, 5] := by simp [dictGet]
    have h2 : dictGet [(teKey, [0, 0, 100, 5]), (trKey, [10, 10])] trKey =
        some [10, 10] := by simp [dictGet, teKey, trKey]
    have habs : |(5:ℚ) / (-10)| = 1/2 := by
      rw [show (5:ℚ) / (-10) = -(1/2) from by norm_num, abs_neg]
      exact abs_of_pos (by norm_num)
    have h3 : transform_tr 100 5 [10, 10] = .ok (10, -10, 10, 1/2) := by
      simp only [transform_tr]
      rw [if_neg (by norm_num), if_neg (by norm_num), if_neg (by norm_num)]
      rw [show (100:ℚ) / 10 = 10 from by norm_num, habs]
    have h4 : ratTrunc ((2:ℚ)⁻¹) = 0 := by
      rw [ratTrunc_eq_floor (by norm_num), Int.floor_eq_iff]
      norm_num
    have h5 : ratTrunc (10:ℚ) = 10 := by simp [ratTrunc]
    simp only [get_geotransform, h1, h2]
    norm_num
    rw [h3]
    simp [h4, h5]

/-- C8 (witness): the boundary clause of `transform_tr_height_guard` at
width 100, height 5, tr = [10, 10]: the height guard is false and no
error is raised. -/
theorem transform_tr_height_guard_witness :
    ¬ (5:ℚ) < -10 ∧
    get_geotransform [(teKey, [0, 0, 100, 5]), (trKey, [10, 10])] =
      .ok ([0, 10, 0, 5, 0, -10], 10, 0) :=
  ⟨(transform_tr_height_guard 100 5 10 10 [] (by norm_num) (by norm_num)).1,
    (transform_tr_height_guard 100 5 10 10 [] (by norm_num) (by norm_num)).2.2⟩

/-- C2 (counterexample): the claim "the sixth coefficient is
non-positive … including when the spec carries a tr pair whose second
value is negative" is false: `te = [0,0,100,50]` with `tr = [10,-10]`
derives successfully (resolution_y = -(-10) = 10 passes the guard
because 50 < 10 is false) and the sixth transform coefficient is
10 > 0. -/
theorem geotransform_pixel_height_pos_counterexample :
    get_geotransform [(teKey, [0, 0, 100, 50]), (trKey, [10, -10])] =
      .ok ([0, 10, 0, 50, 0, 10], 10, 5) ∧
    ¬ (([0, 10, 0, 50, 0, 10] : List ℚ).getD 5 0 ≤ 0) := by
  constructor
  · have h1 : dictGet [(teKey, [0, 0, 100, 50]), (trKey, [10, -10])] teKey =
        some [0, 0, 100, 50] := by simp [dictGet]
    have h2 : dictGet [(teKey, [0, 0, 100, 50]), (trKey, [10, -10])] trKey =
        some [10, -10] := by simp [dictGet, teKey, trKey]
    have habs : |(50:ℚ) / 10| = 5 := by
      rw [show (50:ℚ) / 10 = 5 from by norm_num]
      exact abs_of_pos (by norm_num)
    have h3 : transform_tr 100 50 [10, -10] = .ok (10, 10, 10, 5) := by
      simp only [transform_tr]
      rw [if_neg (by norm_num), if_neg (by norm_num), if_neg (by norm_num)]
      norm_num [habs]
    simp only [get_geotransform, h1, h2]
    norm_num
    rw [h3]
    simp [ratTrunc]
  · norm_num

/-- C2 (amended): the sixth transform coefficient (resolution_y) is
non-positive whenever the tr pair, if used, has a non-negative second
value — in particular for every parser-produced spec (whose values are
all non-negative) and for every ts spec, where
`resolution_y = -abs(height / ts[1]) ≤ 0` unconditionally.  A hand-built
spec whose tr second value is negative yields a positive resolution_y,
so the unconditional claim fails. -/
theorem geotransform_pixel_height_nonpos {d : ExtentDict} {g : List ℚ} {a b : ℤ}
    (hok : get_geotransform d = .ok (g, a, b))
    (htr : ∀ t0 t1 rest, dictGet d trKey = some (t0 :: t1 :: rest) → 0 ≤ t1) :
    g.getD 5 0 ≤ 0 := by
  obtain ⟨x0, y0, x1, y1, rest, rxv, ryv, rwv, rhv, hte, hguard, hg, ha, hb,
    hbranch⟩ := get_geotransform_ok hok
  subst hg
  rw [show ([x0, rxv, 0, y1, 0, ryv] : List ℚ).getD 5 0 = ryv from rfl]
  rcases hbranch with ⟨tr, htrs, hoktr⟩ | ⟨-, ts, htss, hokts⟩
  · obtain ⟨t0, t1, rest1, htr_eq, hr, -, -, -⟩ := transform_tr_ok hoktr
    rw [Prod.mk.injEq, Prod.mk.injEq, Prod.mk.injEq] at hr
    rw [hr.2.1]
    subst htr_eq
    exact neg_nonpos.mpr (htr t0 t1 rest1 htrs)
  · obtain ⟨x, y, hts_eq, hr, -, -⟩ := transform_ts_ok hokts
    rw [Prod.mk.injEq, Prod.mk.injEq, Prod.mk.injEq] at hr
    rw [hr.2.1]
    exact neg_nonpos.mpr (abs_nonneg _)

/-- C2 (witness): `geotransform_pixel_height_nonpos` applied to the
concrete spec `te = [0,0,100,100]`, `ts = [100,100]`. -/
theorem geotransform_pixel_height_nonpos_witness :
    (([0, 1, 0, 100, 0, -1] : List ℚ).getD 5 0 : ℚ) ≤ 0 := by
  have h1 : dictGet [(teKey, [0, 0, 100, 100]), (tsKey, [100, 100])] teKey =
      some [0, 0, 100, 100] := by simp [dictGet]
  have h2 : dictGet [(teKey, [0, 0, 100, 100]), (tsKey, [100, 100])] trKey =
      none := by simp [dictGet, teKey, tsKey, trKey]
  have h3 : dictGet [(teKey, [0, 0, 100, 100]), (tsKey, [100, 100])] tsKey =
      some [100, 100] := by simp [dictGet, teKey, tsKey]
  have h4 : transform_ts 100 100 [100, 100] = .ok (1, -1, 100, 100) := by
    norm_num [transform_ts]
  have hok : get_geotransform [(teKey, [0, 0, 100, 100]), (tsKey, [100, 100])] =
      .ok ([0, 1, 0, 100, 0, -1], 100, 100) := by
    simp only [get_geotransform, h1, h2, h3]
    norm_num
    rw [h4]
    simp [ratTrunc]
  exact geotransform_pixel_height_nonpos hok
    (fun t0 t1 rest hcontra => absurd hcontra (by rw [h2]; simp))

/-- C10: the divisions of the derivation are unguarded against zero: a
ts pair containing 0 makes `transform_ts` raise ZeroDivisionError; a tr
pair with `tr[0] = 0` passes the `width < resolution_x` guard (width is
positive) and then `width / 0` raises ZeroDivisionError; and
ZeroDivisionError is not an OptionError.  The full pipeline on
`"-te 0 0 100 100 -ts 0 100"` parses successfully and then raises
ZeroDivisionError in the derivation. -/
theorem zero_resolution_zero_division (w h x y t1 : ℚ) (hw : 0 < w)
    (hhg : ¬ h < -t1) :
    ((x = 0 ∨ y = 0) → transform_ts w h [x, y] = .error .zeroDivisionError) ∧
    transform_tr w h [0, t1] = .error .zeroDivisionError ∧
    PyErr.isOptionError .zeroDivisionError = false ∧
    create_extent_dict "-te 0 0 100 100 -ts 0 100" =
      .ok [(teKey, [0, 0, 100, 100]), (tsKey, [0, 100])] ∧
    get_geotransform [(teKey, [0, 0, 100, 100]), (tsKey, [0, 100])] =
      .error .zeroDivisionError := by
  refine ⟨fun hxy => ?_, ?_, rfl, ?_, ?_⟩
  · rcases hxy with rfl | rfl
    · simp [transform_ts]
    · by_cases hx : x = 0 <;> simp [transform_ts, hx]
  · have hguard : ¬(w < (0:ℚ) ∨ h < -t1) := by
      rintro (h1 | h2)
      · exact absurd h1 (by linarith)
      · exact hhg h2
    simp only [transform_tr, if_neg hguard]
    simp
  · have hq1 : floatList [['0'], ['0'], ['1','0','0'], ['1','0','0']] =
        some [0, 0, 100, 100] := by
      rw [floatList_digits _ (by decide)]
      rw [show List.map (fun t => (digitsVal t : ℚ))
          [['0'], ['0'], ['1','0','0'], ['1','0','0']]
          = [((0:ℕ):ℚ), ((0:ℕ):ℚ), ((100:ℕ):ℚ), ((100:ℕ):ℚ)] from rfl]
      norm_num
    have hq2 : floatList [['0'], ['1','0','0']] = some [0, 100] := by
      rw [floatList_digits _ (by decide)]
      rw [show List.map (fun t => (digitsVal t : ℚ)) [['0'], ['1','0','0']]
          = [((0:ℕ):ℚ), ((100:ℕ):ℚ)] from rfl]
      norm_num
    have hsplit : (pySplitHyphen
        (pyStrip ("-te 0 0 100 100 -ts 0 100" : String).data)).drop 1 =
        ["te 0 0 100 100 ".data, "ts 0 100".data] := by decide
    have hg1 : pySplitWs "te 0 0 100 100 ".data =
        teKey :: [['0'], ['0'], ['1','0','0'], ['1','0','0']] := by decide
    have hg2 : pySplitWs "ts 0 100".data =
        tsKey :: [['0'], ['1','0','0']] := by decide
    exact create_extent_dict_eval hsplit hg1 hg2 (by decide) (by decide)
      hq1 hq2 (by rfl) (by rfl)
  · have h1 : dictGet [(teKey, [0, 0, 100, 100]), (tsKey, [0, 100])] teKey =
        some [0, 0, 100, 100] := by simp [dictGet]
    have h2 : dictGet [(teKey, [0, 0, 100, 100]), (tsKey, [0, 100])] trKey =
        none := by simp [dictGet, teKey, tsKey, trKey]
    have h3 : dictGet [(teKey, [0, 0, 100, 100]), (tsKey, [0, 100])] tsKey =
        some [0, 100] := by simp [dictGet, teKey, tsKey]
    have h4 : transform_ts 100 100 [0, 100] = .error .zeroDivisionError := by
      simp [transform_ts]
    simp only [get_geotransform, h1, h2, h3]
    norm_num
    rw [h4]

/-- C10 (witness): `zero_resolution_zero_division` at width 100,
height 100, ts = [0, 100], tr = [0, 10]: the tr clause concretely. -/
theorem zero_resolution_zero_division_witness :
    transform_tr 100 100 [0, 10] = .error .zeroDivisionError :=
  (zero_resolution_zero_division 100 100 0 100 10 (by norm_num)
    (by norm_num)).2.1

/-- C9: a negative numeric value in the extent string puts an extra
hyphen into the input, so the hyphen split produces more than two
groups and the parser fails with the wrong-group-count OptionError
(whose payload is the actual group count, equal to the hyphen count):
for every string whose stripped form contains more than two hyphens the
parse returns `optGroupCount (hyphen count)`; in particular
`"-te -10 30 55 60 -ts 100 100"` (the documented format with a negative
xmin) yields `optGroupCount 3`, so negative coordinates cannot be
expressed through the string interface. -/
theorem negative_value_group_count (s : String)
    (hcount : 2 < (pyStrip s.data).count '-') :
    create_extent_dict s =
      .error (.optGroupCount ((pyStrip s.data).count '-')) ∧
    create_extent_dict "-te -10 30 55 60 -ts 100 100" =
      .error (.optGroupCount 3) := by
  have key : ∀ t : String, 2 < (pyStrip t.data).count '-' →
      create_extent_dict t =
        .error (.optGroupCount ((pyStrip t.data).count '-')) := by
    intro t ht
    have hlen : ((pySplitHyphen (pyStrip t.data)).drop 1).length =
        (pyStrip t.data).count '-' := by
      rw [List.length_drop, pySplitHyphen_length]
      omega
    rw [← hlen]
    exact create_extent_dict_group_count_error t (by omega)
  refine ⟨key s hcount, ?_⟩
  have hc : (pyStrip ("-te -10 30 55 60 -ts 100 100" : String).data).count '-'
      = 3 := by decide
  rw [key "-te -10 30 55 60 -ts 100 100" (by rw [hc]; omega), hc]

/-- C9 (witness): `negative_value_group_count` at the documented
negative-coordinate string, whose stripped form has 3 hyphens. -/
theorem negative_value_group_count_witness :
    2 < (pyStrip ("-te -10 30 55 60 -ts 100 100" : String).data).count '-' ∧
    create_extent_dict "-te -10 30 55 60 -ts 100 100" =
      .error (.optGroupCount
        ((pyStrip ("-te -10 30 55 60 -ts 100 100" : String).data).count '-')) :=
  ⟨by decide,
    (negative_value_group_count "-te -10 30 55 60 -ts 100 100" (by decide)).1⟩

/-- C4 (counterexample): the claim "raster width and raster height are
both positive integers" fails: the parser-accepted spec
`"-te 0 0 100 5 -tr 10 10"` derives successfully with raster height
`int(abs(5 / -10)) = int(0.5) = 0`, which is not positive. -/
theorem raster_size_positive_counterexample :
    create_extent_dict "-te 0 0 100 5 -tr 10 10" =
      .ok [(teKey, [0, 0, 100, 5]), (trKey, [10, 10])] ∧
    get_geotransform [(teKey, [0, 0, 100, 5]), (trKey, [10, 10])] =
      .ok ([0, 10, 0, 5, 0, -10], 10, 0) ∧
    ¬ (0 < (0:ℤ)) := by
  refine ⟨?_, ?_, by omega⟩
  · have hq1 : floatList [['0'], ['0'], ['1','0','0'], ['5']] =
        some [0, 0, 100, 5] := by
      rw [floatList_digits _ (by decide)]
      rw [show List.map (fun t => (digitsVal t : ℚ))
          [['0'], ['0'], ['1','0','0'], ['5']]
          = [((0:ℕ):ℚ), ((0:ℕ):ℚ), ((100:ℕ):ℚ), ((5:ℕ):ℚ)] from rfl]
      norm_num
    have hq2 : floatList [['1','0'], ['1','0']] = some [10, 10] := by
      rw [floatList_digits _ (by decide)]
      rw [show List.map (fun t => (digitsVal t : ℚ)) [['1','0'], ['1','0']]
          = [((10:ℕ):ℚ), ((10:ℕ):ℚ)] from rfl]
      norm_num
    have hsplit : (pySplitHyphen
        (pyStrip ("-te 0 0 100 5 -tr 10 10" : String).data)).drop 1 =
        ["te 0 0 100 5 ".data, "tr 10 10".data] := by decide
    have hg1 : pySplitWs "te 0 0 100 5 ".data =
        teKey :: [['0'], ['0'], ['1','0','0'], ['5']] := by decide
    have hg2 : pySplitWs "tr 10 10".data =
        trKey :: [['1','0'], ['1','0']] := by decide
    exact create_extent_dict_eval hsplit hg1 hg2 (by decide) (by decide)
      hq1 hq2 (by rfl) (by rfl)
  · have h1 : dictGet [(teKey, [0, 0, 100, 5]), (trKey, [10, 10])] teKey =
        some [0, 0, 100, 5] := by simp [dictGet]
    have h2 : dictGet [(teKey, [0, 0, 100, 5]), (trKey, [10, 10])] trKey =
        some [10, 10] := by simp [dictGet, teKey, trKey]
    have habs : |(5:ℚ) / (-10)| = 1/2 := by
      rw [show (5:ℚ) / (-10) = -(1/2) from by norm_num, abs_neg]
      exact abs_of_pos (by norm_num)
    have h3 : transform_tr 100 5 [10, 10] = .ok (10, -10, 10, 1/2) := by
      simp only [transform_tr]
      rw [if_neg (by norm_num), if_neg (by norm_num), if_neg (by norm_num)]
      rw [show (100:ℚ) / 10 = 10 from by norm_num, habs]
    have h4 : ratTrunc ((2:ℚ)⁻¹) = 0 := by
      rw [ratTrunc_eq_floor (by norm_num), Int.floor_eq_iff]
      norm_num
    have h5 : ratTrunc (10:ℚ) = 10 := by simp [ratTrunc]
    simp only [get_geotransform, h1, h2]
    norm_num
    rw [h3]
    simp [h4, h5]

/-- C4 (amended): for every extent string accepted by the parser whose
dictionary derives successfully, the returned raster sizes are
non-negative (they can be zero, as the counterexample shows, because
the mis-signed height guard never compares the height against the
magnitude of the resolution); and whenever the te box has
`xmax - xmin ≤ 0` or `ymax - ymin ≤ 0` the derivation fails with the
illegal-extent OptionError before any size is computed. -/
theorem raster_size_nonneg (s : String) (d : ExtentDict) (g : List ℚ) (a b : ℤ)
    (hparse : create_extent_dict s = .ok d)
    (hok : get_geotransform d = .ok (g, a, b)) :
    (0 ≤ a ∧ 0 ≤ b) ∧
    (∀ (d2 : ExtentDict) (x0 y0 x1 y1 : ℚ) (rest : List ℚ),
      dictGet d2 teKey = some (x0 :: y0 :: x1 :: y1 :: rest) →
      (x1 - x0 ≤ 0 ∨ y1 - y0 ≤ 0) →
      get_geotransform d2 = .error .optIllegalExtent) := by
  constructor
  · obtain ⟨n1, v1, n2, v2, rfl, hn1, hn2, hl1, hl2, hnn1, hnn2⟩ :=
      create_extent_dict_chars_ok hparse
    obtain ⟨x0, y0, x1, y1, rest, rxv, ryv, rwv, rhv, hte, hguard, hg, ha, hb,
      hbranch⟩ := get_geotransform_ok hok
    push_neg at hguard
    subst ha
    subst hb
    rcases hbranch with ⟨tr, htrs, hoktr⟩ | ⟨-, ts, htss, hokts⟩
    · obtain ⟨t0, t1, rest1, rfl, hr, -, ht0, -⟩ := transform_tr_ok hoktr
      rcases dictGet_pair htrs with ⟨he1, -⟩ | ⟨-, -, he3⟩
      · rcases hn1 with rfl | rfl <;> exact absurd he1 (by decide)
      · rw [Prod.mk.injEq, Prod.mk.injEq, Prod.mk.injEq] at hr
        obtain ⟨-, -, hrw, hrh⟩ := hr
        subst hrw
        subst hrh
        have ht0mem : t0 ∈ v2 := by
          rw [← he3]
          exact List.mem_cons_self t0 (t1 :: rest1)
        have ht0pos : 0 < t0 := lt_of_le_of_ne (hnn2 t0 ht0mem) (Ne.symm ht0)
        exact ⟨ratTrunc_nonneg (le_of_lt (div_pos hguard.1 ht0pos)),
          ratTrunc_nonneg (abs_nonneg _)⟩
    · obtain ⟨x, y, rfl, hr, -, -⟩ := transform_ts_ok hokts
      rcases dictGet_pair htss with ⟨he1, -⟩ | ⟨-, -, he3⟩
      · rcases hn1 with rfl | rfl <;> exact absurd he1 (by decide)
      · rw [Prod.mk.injEq, Prod.mk.injEq, Prod.mk.injEq] at hr
        obtain ⟨-, -, hrw, hrh⟩ := hr
        rw [hrw, hrh]
        have hxmem : x ∈ v2 := by
          rw [← he3]
          exact List.mem_cons_self x [y]
        have hymem : y ∈ v2 := by
          rw [← he3]
          exact List.mem_cons_of_mem x (List.mem_cons_self y [])
        exact ⟨ratTrunc_nonneg (hnn2 x hxmem), ratTrunc_nonneg (hnn2 y hymem)⟩
  · intro d2 x0 y0 x1 y1 rest hte2 hbad
    simp only [get_geotransform, hte2]
    rw [if_pos hbad]

/-- C4 (witness): `raster_size_nonneg` applied to the parse and
derivation of `"-te 0 0 100 5 -tr 10 10"`, whose raster sizes are 10
and 0. -/
theorem raster_size_nonneg_witness : 0 ≤ (10:ℤ) ∧ 0 ≤ (0:ℤ) := by
  have hq1 : floatList [['0'], ['0'], ['1','0','0'], ['5']] =
      some [0, 0, 100, 5] := by
    rw [floatList_digits _ (by decide)]
    rw [show List.map (fun t => (digitsVal t : ℚ))
        [['0'], ['0'], ['1','0','0'], ['5']]
        = [((0:ℕ):ℚ), ((0:ℕ):ℚ), ((100:ℕ):ℚ), ((5:ℕ):ℚ)] from rfl]
    norm_num
  have hq2 : floatList [['1','0'], ['1','0']] = some [10, 10] := by
    rw [floatList_digits _ (by decide)]
    rw [show List.map (fun t => (digitsVal t : ℚ)) [['1','0'], ['1','0']]
        = [((10:ℕ):ℚ), ((10:ℕ):ℚ)] from rfl]
    norm_num
  have hsplit : (pySplitHyphen
      (pyStrip ("-te 0 0 100 5 -tr 10 10" : String).data)).drop 1 =
      ["te 0 0 100 5 ".data, "tr 10 10".data] := by decide
  have hg1 : pySplitWs "te 0 0 100 5 ".data =
      teKey :: [['0'], ['0'], ['1','0','0'], ['5']] := by decide
  have hg2 : pySplitWs "tr 10 10".data =
      trKey :: [['1','0'], ['1','0']] := by decide
  have hparse : create_extent_dict "-te 0 0 100 5 -tr 10 10" =
      .ok [(teKey, [0, 0, 100, 5]), (trKey, [10, 10])] :=
    create_extent_dict_eval hsplit hg1 hg2 (by decide) (by decide)
      hq1 hq2 (by rfl) (by rfl)
  have h1 : dictGet [(teKey, [0, 0, 100, 5]), (trKey, [10, 10])] teKey =
      some [0, 0, 100, 5] := by simp [dictGet]
  have h2 : dictGet [(teKey, [0, 0, 100, 5]), (trKey, [10, 10])] trKey =
      some [10, 10] := by simp [dictGet, teKey, trKey]
  have habs : |(5:ℚ) / (-10)| = 1/2 := by
    rw [show (5:ℚ) / (-10) = -(1/2) from by norm_num, abs_neg]
    exact abs_of_pos (by norm_num)
  have h3 : transform_tr 100 5 [10, 10] = .ok (10, -10, 10, 1/2) := by
    simp only [transform_tr]
    rw [if_neg (by norm_num), if_neg (by norm_num), if_neg (by norm_num)]
    rw [show (100:ℚ) / 10 = 10 from by norm_num, habs]
  have h4 : ratTrunc ((2:ℚ)⁻¹) = 0 := by
    rw [ratTrunc_eq_floor (by norm_num), Int.floor_eq_iff]
    norm_num
  have h5 : ratTrunc (10:ℚ) = 10 := by simp [ratTrunc]
  have hok : get_geotransform [(teKey, [0, 0, 100, 5]), (trKey, [10, 10])] =
      .ok ([0, 10, 0, 5, 0, -10], 10, 0) := by
    simp only [get_geotransform, h1, h2]
    norm_num
    rw [h3]
    simp [h4, h5]
  exact (raster_size_nonneg "-te 0 0 100 5 -tr 10 10"
    [(teKey, [0, 0, 100, 5]), (trKey, [10, 10])] [0, 10, 0, 5, 0, -10] 10 0
    hparse hok).1

/-- C5 (counterexample): the claim "parsing and derivation raise exactly
one error kind" is false: `"-te 0 0 100 100 -ts 0 100"` parses
successfully (0 is a valid float) and the derivation then raises
ZeroDivisionError, which is not the documented OptionError. -/
theorem extent_error_second_kind_counterexample :
    create_extent_dict "-te 0 0 100 100 -ts 0 100" =
      .ok [(teKey, [0, 0, 100, 100]), (tsKey, [0, 100])] ∧
    get_geotransform [(teKey, [0, 0, 100, 100]), (tsKey, [0, 100])] =
      .error .zeroDivisionError ∧
    PyErr.isOptionError .zeroDivisionError = false := by
  refine ⟨?_, ?_, rfl⟩
  · have hq1 : floatList [['0'], ['0'], ['1','0','0'], ['1','0','0']] =
        some [0, 0, 100, 100] := by
      rw [floatList_digits _ (by decide)]
      rw [show List.map (fun t => (digitsVal t : ℚ))
          [['0'], ['0'], ['1','0','0'], ['1','0','0']]
          = [((0:ℕ):ℚ), ((0:ℕ):ℚ), ((100:ℕ):ℚ), ((100:ℕ):ℚ)] from rfl]
      norm_num
    have hq2 : floatList [['0'], ['1','0','0']] = some [0, 100] := by
      rw [floatList_digits _ (by decide)]
      rw [show List.map (fun t => (digitsVal t : ℚ)) [['0'], ['1','0','0']]
          = [((0:ℕ):ℚ), ((100:ℕ):ℚ)] from rfl]
      norm_num
    have hsplit : (pySplitHyphen
        (pyStrip ("-te 0 0 100 100 -ts 0 100" : String).data)).drop 1 =
        ["te 0 0 100 100 ".data, "ts 0 100".data] := by decide
    have hg1 : pySplitWs "te 0 0 100 100 ".data =
        teKey :: [['0'], ['0'], ['1','0','0'], ['1','0','0']] := by decide
    have hg2 : pySplitWs "ts 0 100".data =
        tsKey :: [['0'], ['1','0','0']] := by decide
    exact create_extent_dict_eval hsplit hg1 hg2 (by decide) (by decide)
      hq1 hq2 (by rfl) (by rfl)
  · have h1 : dictGet [(teKey, [0, 0, 100, 100]), (tsKey, [0, 100])] teKey =
        some [0, 0, 100, 100] := by simp [dictGet]
    have h2 : dictGet [(teKey, [0, 0, 100, 100]), (tsKey, [0, 100])] trKey =
        none := by simp [dictGet, teKey, tsKey, trKey]
    have h3 : dictGet [(teKey, [0, 0, 100, 100]), (tsKey, [0, 100])] tsKey =
        some [0, 100] := by simp [dictGet, teKey, tsKey]
    have h4 : transform_ts 100 100 [0, 100] = .error .zeroDivisionError := by
      simp [transform_ts]
    simp only [get_geotransform, h1, h2, h3]
    norm_num
    rw [h4]

/-- C5 (amended): every parse failure is an OptionError (the
wrong-group-count error with the actual count as payload, the
bad-option-name error, the not-numeric error, or the wrong-value-count
error) or the IndexError raised by an empty option group; a group count
other than 2 always produces exactly the group-count OptionError; and
on a parser-produced dictionary holding a `te` key, a derivation
failure is the illegal-extent OptionError, the tr-too-large
OptionError, or ZeroDivisionError — so InvalidExtentError is not the
only error kind, but on every failure no transform or size is
produced. -/
theorem extent_error_kinds :
    (∀ (s : String) (e : PyErr), create_extent_dict s = .error e →
      e.isOptionError = true ∨ e = .indexError) ∧
    (∀ s : String, ((pySplitHyphen (pyStrip s.data)).drop 1).length ≠ 2 →
      create_extent_dict s =
        .error (.optGroupCount ((pySplitHyphen (pyStrip s.data)).drop 1).length)) ∧
    (∀ (s : String) (d : ExtentDict) (e : PyErr), create_extent_dict s = .ok d →
      dictHasKey d teKey = true → get_geotransform d = .error e →
      e = .optIllegalExtent ∨ (∃ wq hq : ℚ, e = .optTrTooLarge wq hq) ∨
        e = .zeroDivisionError) := by
  refine ⟨fun s e h => ?_, fun s h => create_extent_dict_group_count_error s h,
    fun s d e hparse hkey herr => ?_⟩
  · simp only [create_extent_dict, create_extent_dict_chars] at h
    split at h
    · split at h
      · rename_i e1 hchk1
        rw [Except.error.injEq] at h
        subst h
        exact check_extent_input_error hchk1
      rename_i u1 hchk1
      split at h
      · rename_i e2 hchk2
        rw [Except.error.injEq] at h
        subst h
        exact check_extent_input_error hchk2
      rename_i u2 hchk2
      split at h
      · rename_i e3 hpg1
        obtain ⟨nm, vl, fss, hga, hmm, hfl, hln, hp⟩ := parseGroupKV_of_check hchk1
        rw [hp] at hpg1
        exact absurd hpg1 (by simp)
      rename_i kv1 hpg1
      split at h
      · rename_i e4 hpg2
        obtain ⟨nm, vl, fss, hga, hmm, hfl, hln, hp⟩ := parseGroupKV_of_check hchk2
        rw [hp] at hpg2
        exact absurd hpg2 (by simp)
      · exact absurd h (by simp)
    · rw [Except.error.injEq] at h
      subst h
      exact Or.inl rfl
  · obtain ⟨n1, v1, n2, v2, rfl, hn1, hn2, hl1, hl2, -, -⟩ :=
      create_extent_dict_chars_ok hparse
    have hn1te : n1 = teKey := by
      rcases hn1 with rfl | rfl
      · rfl
      · exfalso
        rcases hn2 with rfl | rfl <;>
          simp [dictHasKey, dictGet, teKey, lleKey, tsKey, trKey] at hkey
    subst hn1te
    obtain ⟨a, b, c, dd, rfl⟩ := length_eq_four hl1
    have hget : dictGet [(teKey, [a, b, c, dd]), (n2, v2)] teKey =
        some [a, b, c, dd] := by simp [dictGet]
    simp only [get_geotransform, hget] at herr
    split at herr
    · rw [Except.error.injEq] at herr
      subst herr
      exact Or.inl rfl
    · split at herr
      · rename_i e4 hbr
        rw [Except.error.injEq] at herr
        subst herr
        obtain ⟨x, y, rfl⟩ := List.length_eq_two.mp hl2
        rcases hn2 with rfl | rfl
        · have hno : dictGet [(teKey, [a, b, c, dd]), (tsKey, [x, y])] trKey =
              none := by simp [dictGet, teKey, tsKey, trKey]
          have hts : dictGet [(teKey, [a, b, c, dd]), (tsKey, [x, y])] tsKey =
              some [x, y] := by simp [dictGet, teKey, tsKey]
          simp only [hno, hts] at hbr
          exact Or.inr (Or.inr (transform_ts_error hbr))
        · have htr : dictGet [(teKey, [a, b, c, dd]), (trKey, [x, y])] trKey =
              some [x, y] := by simp [dictGet, teKey, trKey]
          simp only [htr] at hbr
          rcases transform_tr_error hbr with h1 | h1
          · exact Or.inr (Or.inl ⟨c - a, dd - b, h1⟩)
          · exact Or.inr (Or.inr h1)
      · exact absurd herr (by simp)

/-- C5 (witness): the parse-error clause of `extent_error_kinds` at the
unrecognised option name `foo`. -/
theorem extent_error_kinds_witness :
    PyErr.isOptionError (.optBadName ['f','o','o']) = true ∨
      (PyErr.optBadName ['f','o','o']) = .indexError := by
  have hsplit : (pySplitHyphen
      (pyStrip ("-foo 1 2 3 4 -ts 10 10" : String).data)).drop 1 =
      ["foo 1 2 3 4 ".data, "ts 10 10".data] := by decide
  have hg1 : pySplitWs "foo 1 2 3 4 ".data =
      ['f','o','o'] :: [['1'], ['2'], ['3'], ['4']] := by decide
  have herr : create_extent_dict "-foo 1 2 3 4 -ts 10 10" =
      .error (.optBadName ['f','o','o']) :=
    create_extent_dict_eval_badname hsplit hg1 (by decide)
  exact extent_error_kinds.1 "-foo 1 2 3 4 -ts 10 10" _ herr

/-- C7 (counterexample): the claim "every ExtentSpec … at every point of
its lifecycle (including after lle-to-te conversion) has exactly two
top-level keys" is false: after converting the parsed spec of
`"-lle 0 0 10 10 -ts 5 5"` (with the identity coordinate transform) the
dictionary keeps `lle`, keeps `ts` and gains `te` — three keys.  (In
Python the same dict object is mutated in place and returned.) -/
theorem convert_extentDic_three_keys_counterexample :
    create_extent_dict "-lle 0 0 10 10 -ts 5 5" =
      .ok [(lleKey, [0, 0, 10, 10]), (tsKey, [5, 5])] ∧
    convert_extentDic (fun a b => (a, b))
        [(lleKey, [0, 0, 10, 10]), (tsKey, [5, 5])] =
      .ok [(lleKey, [0, 0, 10, 10]), (tsKey, [5, 5]), (teKey, [0, 0, 10, 10])] ∧
    ([(lleKey, [0, 0, 10, 10]), (tsKey, [5, 5]),
      (teKey, [0, 0, 10, 10])] : ExtentDict).length ≠ 2 := by
  refine ⟨?_, ?_, by simp⟩
  · have hq1 : floatList [['0'], ['0'], ['1','0'], ['1','0']] =
        some [0, 0, 10, 10] := by
      rw [floatList_digits _ (by decide)]
      rw [show List.map (fun t => (digitsVal t : ℚ))
          [['0'], ['0'], ['1','0'], ['1','0']]
          = [((0:ℕ):ℚ), ((0:ℕ):ℚ), ((10:ℕ):ℚ), ((10:ℕ):ℚ)] from rfl]
      norm_num
    have hq2 : floatList [['5'], ['5']] = some [5, 5] := by
      rw [floatList_digits _ (by decide)]
      rw [show List.map (fun t => (digitsVal t : ℚ)) [['5'], ['5']]
          = [((5:ℕ):ℚ), ((5:ℕ):ℚ)] from rfl]
      norm_num
    have hsplit : (pySplitHyphen
        (pyStrip ("-lle 0 0 10 10 -ts 5 5" : String).data)).drop 1 =
        ["lle 0 0 10 10 ".data, "ts 5 5".data] := by decide
    have hg1 : pySplitWs "lle 0 0 10 10 ".data =
        lleKey :: [['0'], ['0'], ['1','0'], ['1','0']] := by decide
    have hg2 : pySplitWs "ts 5 5".data = tsKey :: [['5'], ['5']] := by decide
    exact create_extent_dict_eval hsplit hg1 hg2 (by decide) (by decide)
      hq1 hq2 (by rfl) (by rfl)
  · have hlget : dictGet [(lleKey, [0, 0, 10, 10]), (tsKey, [5, 5])] lleKey =
        some [0, 0, 10, 10] := by simp [dictGet]
    have hset : dictSet [(lleKey, [0, 0, 10, 10]), (tsKey, [5, 5])] teKey
        [0, 0, 10, 10] = [(lleKey, [0, 0, 10, 10]), (tsKey, [5, 5]),
          (teKey, [0, 0, 10, 10])] := by
      simp [dictSet, dictHasKey, dictGet, lleKey, tsKey, teKey]
    simp only [convert_extentDic, hlget]
    norm_num [min_def, max_def]
    rw [hset]

/-- C7 (amended): every parser-produced spec has exactly two top-level
keys, the first from {te, lle} and the second from {ts, tr}; but the
lle-to-te conversion does not preserve this invariant: it returns the
dictionary (mutated in place in Python) with THREE keys — the retained
`lle`, the retained ts/tr key, and the added `te`. -/
theorem extent_dict_keys :
    (∀ (s : String) (d : ExtentDict), create_extent_dict s = .ok d →
      d.length = 2 ∧ ∃ n1 v1 n2 v2, d = [(n1, v1), (n2, v2)] ∧
        (n1 = teKey ∨ n1 = lleKey) ∧ (n2 = tsKey ∨ n2 = trKey)) ∧
    (∀ (s : String) (d : ExtentDict) (trans : ℚ → ℚ → ℚ × ℚ)
        (d2 : ExtentDict),
      create_extent_dict s = .ok d → dictHasKey d lleKey = true →
      convert_extentDic trans d = .ok d2 →
      d2.length = 3 ∧ dictHasKey d2 teKey = true ∧
        dictHasKey d2 lleKey = true) := by
  constructor
  · intro s d hp
    obtain ⟨n1, v1, n2, v2, rfl, hn1, hn2, -, -, -, -⟩ :=
      create_extent_dict_chars_ok hp
    exact ⟨rfl, n1, v1, n2, v2, rfl, hn1, hn2⟩
  · intro s d trans d2 hp hkey hconv
    obtain ⟨n1, v1, n2, v2, rfl, hn1, hn2, hl1, hl2, -, -⟩ :=
      create_extent_dict_chars_ok hp
    have hn1lle : n1 = lleKey := by
      rcases hn1 with rfl | rfl
      · exfalso
        rcases hn2 with rfl | rfl <;>
          simp [dictHasKey, dictGet, teKey, lleKey, tsKey, trKey] at hkey
      · rfl
    subst hn1lle
    obtain ⟨a, b, c, dd, rfl⟩ := length_eq_four hl1
    have hlget : dictGet [(lleKey, [a, b, c, dd]), (n2, v2)] lleKey =
        some [a, b, c, dd] := by simp [dictGet]
    simp only [convert_extentDic, hlget] at hconv
    rw [Except.ok.injEq] at hconv
    have hno : dictHasKey [(lleKey, [a, b, c, dd]), (n2, v2)] teKey = false := by
      rcases hn2 with rfl | rfl <;>
        simp [dictHasKey, dictGet, teKey, lleKey, tsKey, trKey]
    simp only [dictSet, hno] at hconv
    rw [if_neg (by simp)] at hconv
    subst hconv
    refine ⟨by simp, ?_, by simp [dictHasKey, dictGet]⟩
    rcases hn2 with rfl | rfl <;>
      simp [dictHasKey, dictGet, teKey, lleKey, tsKey, trKey]

/-- C7 (witness): `extent_dict_keys` applied to the parse and identity
conversion of `"-lle 0 0 10 10 -ts 5 5"`. -/
theorem extent_dict_keys_witness :
    ([(lleKey, [0, 0, 10, 10]), (tsKey, [5, 5]),
      (teKey, [0, 0, 10, 10])] : ExtentDict).length = 3 ∧
    dictHasKey [(lleKey, [0, 0, 10, 10]), (tsKey, [5, 5]),
      (teKey, [0, 0, 10, 10])] teKey = true ∧
    dictHasKey [(lleKey, [0, 0, 10, 10]), (tsKey, [5, 5]),
      (teKey, [0, 0, 10, 10])] lleKey = true := by
  have hq1 : floatList [['0'], ['0'], ['1','0'], ['1','0']] =
      some [0, 0, 10, 10] := by
    rw [floatList_digits _ (by decide)]
    rw [show List.map (fun t => (digitsVal t : ℚ))
        [['0'], ['0'], ['1','0'], ['1','0']]
        = [((0:ℕ):ℚ), ((0:ℕ):ℚ), ((10:ℕ):ℚ), ((10:ℕ):ℚ)] from rfl]
    norm_num
  have hq2 : floatList [['5'], ['5']] = some [5, 5] := by
    rw [floatList_digits _ (by decide)]
    rw [show List.map (fun t => (digitsVal t : ℚ)) [['5'], ['5']]
        = [((5:ℕ):ℚ), ((5:ℕ):ℚ)] from rfl]
    norm_num
  have hsplit : (pySplitHyphen
      (pyStrip ("-lle 0 0 10 10 -ts 5 5" : String).data)).drop 1 =
      ["lle 0 0 10 10 ".data, "ts 5 5".data] := by decide
  have hg1 : pySplitWs "lle 0 0 10 10 ".data =
      lleKey :: [['0'], ['0'], ['1','0'], ['1','0']] := by decide
  have hg2 : pySplitWs "ts 5 5".data = tsKey :: [['5'], ['5']] := by decide
  have hparse : create_extent_dict "-lle 0 0 10 10 -ts 5 5" =
      .ok [(lleKey, [0, 0, 10, 10]), (tsKey, [5, 5])] :=
    create_extent_dict_eval hsplit hg1 hg2 (by decide) (by decide)
      hq1 hq2 (by rfl) (by rfl)
  have hlget : dictGet [(lleKey, [0, 0, 10, 10]), (tsKey, [5, 5])] lleKey =
      some [0, 0, 10, 10] := by simp [dictGet]
  have hset : dictSet [(lleKey, [0, 0, 10, 10]), (tsKey, [5, 5])] teKey
      [0, 0, 10, 10] = [(lleKey, [0, 0, 10, 10]), (tsKey, [5, 5]),
        (teKey, [0, 0, 10, 10])] := by
    simp [dictSet, dictHasKey, dictGet, lleKey, tsKey, teKey]
  have hconv : convert_extentDic (fun a b => (a, b))
      [(lleKey, [0, 0, 10, 10]), (tsKey, [5, 5])] =
      .ok [(lleKey, [0, 0, 10, 10]), (tsKey, [5, 5]),
        (teKey, [0, 0, 10, 10])] := by
    simp only [convert_extentDic, hlget]
    norm_num [min_def, max_def]
    rw [hset]
  exact extent_dict_keys.2 "-lle 0 0 10 10 -ts 5 5"
    [(lleKey, [0, 0, 10, 10]), (tsKey, [5, 5])] (fun a b => (a, b))
    [(lleKey, [0, 0, 10, 10]), (tsKey, [5, 5]), (teKey, [0, 0, 10, 10])]
    hparse (by simp [dictHasKey, dictGet]) hconv

end Nansat
